import Mathlib

/-!
Verification of the cookbook recipe service (database.py, schemas.py,
routes.py): a shallow embedding of the relational state, the scoped
session produced by `get_db`, and the three endpoint handlers
`get_all_recipes`, `get_recipe_by_id`, `create_recipe`.
-/

namespace Cookbook

/-- Row of the `recipes` table (database.py, class Recipe):
id, title (String 255), cooking_time (Integer), description (Text),
views (Integer, default 0). -/
structure StoredRecipe where
  id : Int
  title : String
  cooking_time : Int
  description : String
  views : Int
deriving Repr, DecidableEq

/-- Row of the `ingredients` table (database.py, class Ingredient):
id, name (String 255), quantity (String 100), recipe_id (FK to recipes.id). -/
structure StoredIngredient where
  id : Int
  name : String
  quantity : String
  recipe_id : Int
deriving Repr, DecidableEq

/-- The persistent database state: the two tables in insertion order plus
the autoincrement counters that generate primary keys. -/
structure Storage where
  recipes : List StoredRecipe
  ingredients : List StoredIngredient
  nextRecipeId : Int
  nextIngredientId : Int
deriving Repr, DecidableEq

/-- A SQLAlchemy session as seen by one request: the state already
committed to the database, and the pending state including uncommitted
(added / flushed) changes. -/
structure DBSession where
  committed : Storage
  pending : Storage
deriving Repr, DecidableEq

/-- Opening a session: nothing pending beyond the committed state. -/
def startSession (s : Storage) : DBSession := ⟨s, s⟩

/-- `session.commit()`: pending changes become durable. -/
def sessionCommit (sess : DBSession) : DBSession := ⟨sess.pending, sess.pending⟩

/-- `session.rollback()`: pending changes are discarded. -/
def sessionRollback (sess : DBSession) : DBSession := ⟨sess.committed, sess.committed⟩

/-- Errors a handler can raise: the 404 `HTTPException` of
`get_recipe_by_id` (carrying the requested id), a storage-layer failure
during persistence, and the pydantic validation failure raised before the
handler body runs. -/
inductive Err where
  | notFound (recipe_id : Int)
  | storageError
  | validationError
deriving Repr, DecidableEq

/-- Outcome of one request once its session scope has exited:
the response or re-raised error, the database state afterwards, and
whether the underlying connection was released. -/
structure SessionOutcome (α : Type) where
  result : Except Err α
  store : Storage
  connectionReleased : Bool
deriving Repr

/-- database.py `get_db`: runs the request handler inside
`async with AsyncSessionLocal() as session`; on normal completion commits,
on any exception rolls back and re-raises, and in both cases closes
(releases) the session in the `finally` block. -/
def get_db {α : Type} (handler : DBSession → Except Err α × DBSession)
    (s : Storage) : SessionOutcome α :=
  match handler (startSession s) with
  | (Except.ok a, sess) => ⟨Except.ok a, (sessionCommit sess).committed, true⟩
  | (Except.error e, sess) => ⟨Except.error e, (sessionRollback sess).committed, true⟩

/-- schemas.py `IngredientCreate`: name and quantity fields. -/
structure IngredientCreate where
  name : String
  quantity : String
deriving Repr, DecidableEq

/-- schemas.py `RecipeCreate`: title, cooking_time, description plus the
ingredient inputs. -/
structure RecipeCreate where
  title : String
  cooking_time : Int
  description : String
  ingredients : List IngredientCreate
deriving Repr, DecidableEq

/-- schemas.py `IngredientResponse`: id, name, quantity. -/
structure IngredientResponse where
  id : Int
  name : String
  quantity : String
deriving Repr, DecidableEq

/-- schemas.py `RecipeListResponse`: id, title, cooking_time, views —
the summary projection, no description and no ingredients. -/
structure RecipeListResponse where
  id : Int
  title : String
  cooking_time : Int
  views : Int
deriving Repr, DecidableEq

/-- schemas.py `RecipeDetailResponse`: id, title, cooking_time,
description, views and the ingredient responses. -/
structure RecipeDetailResponse where
  id : Int
  title : String
  cooking_time : Int
  description : String
  views : Int
  ingredients : List IngredientResponse
deriving Repr, DecidableEq

/-- Pydantic field constraints of `IngredientBase`:
name min_length 1 / max_length 255, quantity min_length 1 / max_length 100. -/
def IngredientCreate.valid (i : IngredientCreate) : Bool :=
  decide (1 ≤ i.name.length) && decide (i.name.length ≤ 255) &&
  decide (1 ≤ i.quantity.length) && decide (i.quantity.length ≤ 100)

/-- Pydantic field constraints of `RecipeBase`/`RecipeCreate`:
title min_length 1 / max_length 255, cooking_time gt 0,
description min_length 10, and every ingredient valid. -/
def RecipeCreate.valid (r : RecipeCreate) : Bool :=
  decide (1 ≤ r.title.length) && decide (r.title.length ≤ 255) &&
  decide (0 < r.cooking_time) && decide (10 ≤ r.description.length) &&
  r.ingredients.all IngredientCreate.valid

/-- Projection of a stored recipe into `RecipeListResponse`
(`RecipeListResponse.model_validate(recipe)`). -/
def toListResponse (r : StoredRecipe) : RecipeListResponse :=
  ⟨r.id, r.title, r.cooking_time, r.views⟩

/-- Projection of a stored ingredient into `IngredientResponse`. -/
def toIngredientResponse (i : StoredIngredient) : IngredientResponse :=
  ⟨i.id, i.name, i.quantity⟩

/-- `selectinload(Recipe.ingredients)`: the ingredients whose
`recipe_id` references the recipe, in insertion order. -/
def loadIngredients (s : Storage) (rid : Int) : List StoredIngredient :=
  s.ingredients.filter (fun i => i.recipe_id == rid)

/-- Projection of a stored recipe with its loaded ingredients into
`RecipeDetailResponse` (`RecipeDetailResponse.model_validate(recipe)`). -/
def toDetailResponse (s : Storage) (r : StoredRecipe) : RecipeDetailResponse :=
  ⟨r.id, r.title, r.cooking_time, r.description, r.views,
   (loadIngredients s r.id).map toIngredientResponse⟩

/-- The ORDER BY of `get_all_recipes`:
`desc(Recipe.views), Recipe.cooking_time` — views descending, then
cooking_time ascending. -/
def recipeLE (a b : StoredRecipe) : Bool :=
  decide (b.views < a.views) ||
  ((a.views == b.views) && decide (a.cooking_time ≤ b.cooking_time))

/-- routes.py `get_all_recipes` handler body: select all recipes ordered
by views desc then cooking_time asc, OFFSET skip, LIMIT limit, projected
to `RecipeListResponse`. Read-only: the session is left untouched. -/
def get_all_recipes (skip limit : Int) (sess : DBSession) :
    Except Err (List RecipeListResponse) × DBSession :=
  let sorted := sess.pending.recipes.mergeSort recipeLE
  let page := (sorted.drop skip.toNat).take limit.toNat
  (Except.ok (page.map toListResponse), sess)

/-- `recipe.views += 1` issued against the session: the row whose id
matches gets its views counter incremented. -/
def incrementViews (rid : Int) (l : List StoredRecipe) : List StoredRecipe :=
  l.map (fun r =>
    if r.id == rid then ⟨r.id, r.title, r.cooking_time, r.description, r.views + 1⟩
    else r)

/-- routes.py `get_recipe_by_id` handler body: look the recipe up with its
ingredients eagerly loaded; raise the 404 `HTTPException` carrying the id
when absent; otherwise increment `views`, commit, refresh, and return the
post-increment detail projection. -/
def get_recipe_by_id (recipe_id : Int) (sess : DBSession) :
    Except Err RecipeDetailResponse × DBSession :=
  match sess.pending.recipes.find? (fun r => r.id == recipe_id) with
  | none => (Except.error (Err.notFound recipe_id), sess)
  | some r =>
      let pending2 : Storage :=
        ⟨incrementViews recipe_id sess.pending.recipes, sess.pending.ingredients,
         sess.pending.nextRecipeId, sess.pending.nextIngredientId⟩
      let refreshed : StoredRecipe :=
        ⟨r.id, r.title, r.cooking_time, r.description, r.views + 1⟩
      (Except.ok (toDetailResponse pending2 refreshed),
       sessionCommit ⟨sess.committed, pending2⟩)

/-- `db.add(new_ingredient)` after the recipe flush: appends a fresh row
referencing `rid` and advances the ingredient id counter. -/
def addIngredient (ing : IngredientCreate) (rid : Int) (s : Storage) : Storage :=
  ⟨s.recipes, s.ingredients ++ [⟨s.nextIngredientId, ing.name, ing.quantity, rid⟩],
   s.nextRecipeId, s.nextIngredientId + 1⟩

/-- The ingredient-insert loop of `create_recipe`, with failure injection:
`failAt = some i` makes the insert of the i-th input ingredient raise a
storage error (modelling a constraint/connection failure during
persistence), `failAt = none` is the normal run. -/
def insertIngredients : List IngredientCreate → Int → Option Nat → Storage →
    Except Err Storage
  | [], _, _, s => Except.ok s
  | _ :: _, _, some 0, _ => Except.error Err.storageError
  | ing :: rest, rid, some (n + 1), s =>
      insertIngredients rest rid (some n) (addIngredient ing rid s)
  | ing :: rest, rid, none, s =>
      insertIngredients rest rid none (addIngredient ing rid s)

/-- routes.py `create_recipe` handler body: build the Recipe with views 0,
`db.add` it and `db.flush()` to obtain its generated id, then add one
Ingredient per input referencing that id, then `db.commit()` and refresh.
On a storage failure during the ingredient inserts the error propagates
with nothing committed. -/
def create_recipe (failAt : Option Nat) (data : RecipeCreate)
    (sess : DBSession) : Except Err RecipeDetailResponse × DBSession :=
  let p := sess.pending
  let rid := p.nextRecipeId
  let newRec : StoredRecipe := ⟨rid, data.title, data.cooking_time, data.description, 0⟩
  let p1 : Storage := ⟨p.recipes ++ [newRec], p.ingredients, p.nextRecipeId + 1, p.nextIngredientId⟩
  match insertIngredients data.ingredients rid failAt p1 with
  | Except.error e => (Except.error e, ⟨sess.committed, p1⟩)
  | Except.ok p2 =>
      (Except.ok (toDetailResponse p2 newRec), sessionCommit ⟨sess.committed, p2⟩)

/-- GET /recipes: the handler run inside the `get_db` session scope. -/
def listRecipesEndpoint (skip limit : Int) (s : Storage) :
    SessionOutcome (List RecipeListResponse) :=
  get_db (get_all_recipes skip limit) s

/-- GET /recipes/recipe_id: the handler run inside the `get_db` scope. -/
def getRecipeEndpoint (recipe_id : Int) (s : Storage) :
    SessionOutcome RecipeDetailResponse :=
  get_db (get_recipe_by_id recipe_id) s

/-- POST /recipes: FastAPI validates the body against `RecipeCreate`
before the handler body runs; an invalid body is rejected with a
validation failure and no storage access, otherwise the handler runs
inside the `get_db` scope. -/
def createRecipeEndpoint (failAt : Option Nat) (data : RecipeCreate)
    (s : Storage) : SessionOutcome RecipeDetailResponse :=
  if RecipeCreate.valid data then get_db (create_recipe failAt data) s
  else ⟨Except.error Err.validationError, s, true⟩

/-- Default of the `skip` query parameter of `get_all_recipes`. -/
def skip_default : Int := 0

/-- Default of the `limit` query parameter of `get_all_recipes`. -/
def limit_default : Int := 100

/-- GET /recipes with neither query parameter supplied: the defaults of
the handler signature apply. -/
def listRecipesDefaultCall (s : Storage) : SessionOutcome (List RecipeListResponse) :=
  listRecipesEndpoint skip_default limit_default s

/-- The views counter currently stored for a recipe id. -/
def storedViews (s : Storage) (rid : Int) : Option Int :=
  (s.recipes.find? (fun r => r.id == rid)).map (fun r => r.views)

/-- N sequential GET /recipes/recipe_id requests, threading the store. -/
def iterGetRecipe (recipe_id : Int) : Nat → Storage → Storage
  | 0, s => s
  | n + 1, s => iterGetRecipe recipe_id n (getRecipeEndpoint recipe_id s).store

/-- Every stored views counter is non-negative. -/
def viewsNonneg (s : Storage) : Prop := ∀ r ∈ s.recipes, 0 ≤ r.views

/-- No stored views counter decreases from `s` to `t`: every recipe of `s`
is still present (by id) with at least its old views value. -/
def viewsMonotone (s t : Storage) : Prop :=
  ∀ r ∈ s.recipes, ∃ q ∈ t.recipes, q.id = r.id ∧ r.views ≤ q.views

/-- The database right after `create_tables()` on a fresh file: both tables
empty, autoincrement counters at 1. -/
def emptyStorage : Storage := ⟨[], [], 1, 1⟩

/-- The round-trip scenario input: one ingredient Salt / 1 tsp. -/
def saltCreate : RecipeCreate :=
  ⟨"Borscht", 60, "Traditional soup with beets", [⟨"Salt", "1 tsp"⟩]⟩

/-- The invalid-input scenario: a description of length 5. -/
def shortDescCreate : RecipeCreate :=
  ⟨"Borscht", 60, "short", [⟨"Salt", "1 tsp"⟩]⟩

/-! Helper lemmas. -/

theorem recipeLE_trans (a b c : StoredRecipe) (hab : recipeLE a b = true)
    (hbc : recipeLE b c = true) : recipeLE a c = true := by
  simp only [recipeLE, Bool.or_eq_true, Bool.and_eq_true, decide_eq_true_eq,
    beq_iff_eq] at hab hbc ⊢
  omega

theorem recipeLE_total (a b : StoredRecipe) :
    (recipeLE a b || recipeLE b a) = true := by
  simp only [recipeLE, Bool.or_eq_true, Bool.and_eq_true, decide_eq_true_eq,
    beq_iff_eq]
  omega

theorem find?_incrementViews (rid : Int) (l : List StoredRecipe) :
    (incrementViews rid l).find? (fun r => r.id == rid) =
      (l.find? (fun r => r.id == rid)).map
        (fun r => ⟨r.id, r.title, r.cooking_time, r.description, r.views + 1⟩) := by
  induction l with
  | nil => rfl
  | cons a l ih =>
      simp only [incrementViews] at ih ⊢
      by_cases heq : a.id = rid
      · simp [List.find?_cons, heq, -List.find?_map]
      · simp [List.find?_cons, heq, -List.find?_map]
        convert ih using 2
        simp [heq]

theorem getRecipe_store_of_found (rid : Int) (s : Storage) (r : StoredRecipe)
    (h : s.recipes.find? (fun x => x.id == rid) = some r) :
    (getRecipeEndpoint rid s).store =
      ⟨incrementViews rid s.recipes, s.ingredients, s.nextRecipeId, s.nextIngredientId⟩ := by
  simp [getRecipeEndpoint, get_db, get_recipe_by_id, startSession, h, sessionCommit]

theorem getRecipe_result_of_found (rid : Int) (s : Storage) (r : StoredRecipe)
    (h : s.recipes.find? (fun x => x.id == rid) = some r) :
    (getRecipeEndpoint rid s).result =
      Except.ok (toDetailResponse
        ⟨incrementViews rid s.recipes, s.ingredients, s.nextRecipeId, s.nextIngredientId⟩
        ⟨r.id, r.title, r.cooking_time, r.description, r.views + 1⟩) := by
  simp [getRecipeEndpoint, get_db, get_recipe_by_id, startSession, h]

theorem getRecipe_store_of_absent (rid : Int) (s : Storage)
    (h : s.recipes.find? (fun x => x.id == rid) = none) :
    (getRecipeEndpoint rid s).store = s := by
  simp [getRecipeEndpoint, get_db, get_recipe_by_id, startSession, h, sessionRollback]

/-! Theorems for the claims. -/

/-- C7: the scoped session of `get_db` commits pending changes on normal
completion, rolls back and re-raises the same error on failure, and
releases the connection on every exit path. -/
theorem get_db_scope_guarantees {α : Type}
    (handler : DBSession → Except Err α × DBSession) (s : Storage) :
    (get_db handler s).connectionReleased = true ∧
    (∀ a sess, handler (startSession s) = (Except.ok a, sess) →
      (get_db handler s).result = Except.ok a ∧
      (get_db handler s).store = sess.pending) ∧
    (∀ e sess, handler (startSession s) = (Except.error e, sess) →
      (get_db handler s).result = Except.error e ∧
      (get_db handler s).store = sess.committed) := by
  refine ⟨?_, ?_, ?_⟩
  · cases h : handler (startSession s) with
    | mk r sess => cases r <;> simp [get_db, h]
  · intro a sess hh
    simp [get_db, hh, sessionCommit]
  · intro e sess hh
    simp [get_db, hh, sessionRollback]

theorem get_db_scope_guarantees_witness :
    (get_db (fun sess => (Except.ok (0 : Nat), sess)) emptyStorage).connectionReleased = true ∧
    (get_db (fun sess => (Except.ok (0 : Nat), sess)) emptyStorage).store =
      (startSession emptyStorage).pending :=
  ⟨(get_db_scope_guarantees (fun sess => (Except.ok (0 : Nat), sess)) emptyStorage).1,
   ((get_db_scope_guarantees (fun sess => (Except.ok (0 : Nat), sess)) emptyStorage).2.1
      0 (startSession emptyStorage) rfl).2⟩

/-- C10: `get_all_recipes` defaults `skip` to 0 and `limit` to 100, so a
call without pagination arguments returns at most 100 recipes. -/
theorem list_recipes_defaults :
    skip_default = 0 ∧ limit_default = 100 ∧
    ∀ s : Storage, listRecipesDefaultCall s = listRecipesEndpoint 0 100 s ∧
      ∃ l, (listRecipesDefaultCall s).result = Except.ok l ∧ l.length ≤ 100 := by
  refine ⟨rfl, rfl, fun s => ⟨rfl, ⟨_, rfl, ?_⟩⟩⟩
  simp [listRecipesDefaultCall, listRecipesEndpoint, get_db, get_all_recipes,
    skip_default, limit_default, startSession, List.length_take]

/-- C4: `get_recipe_by_id` fails with the 404 error carrying the requested
id exactly when no stored recipe has that id, and in that case the store
is left unchanged. -/
theorem get_recipe_not_found (recipe_id : Int) (s : Storage) :
    ((getRecipeEndpoint recipe_id s).result = Except.error (Err.notFound recipe_id) ↔
      ∀ r ∈ s.recipes, r.id ≠ recipe_id) ∧
    ((∀ r ∈ s.recipes, r.id ≠ recipe_id) → (getRecipeEndpoint recipe_id s).store = s) := by
  cases h : s.recipes.find? (fun r => r.id == recipe_id) with
  | none =>
      have habs : ∀ r ∈ s.recipes, r.id ≠ recipe_id := by
        intro r hr
        have := List.find?_eq_none.mp h r hr
        simpa using this
      have hres : (getRecipeEndpoint recipe_id s).result =
          Except.error (Err.notFound recipe_id) := by
        simp [getRecipeEndpoint, get_db, get_recipe_by_id, startSession, h]
      exact ⟨⟨fun _ => habs, fun _ => hres⟩,
        fun _ => getRecipe_store_of_absent recipe_id s h⟩
  | some r =>
      have hmem := List.mem_of_find?_eq_some h
      have hid : r.id = recipe_id := by simpa using List.find?_some h
      constructor
      · constructor
        · intro hres
          rw [getRecipe_result_of_found recipe_id s r h] at hres
          exact absurd hres (by simp)
        · intro habs
          exact absurd hid (habs r hmem)
      · intro habs
        exact absurd hid (habs r hmem)

theorem iterGetRecipe_views (rid : Int) (N : Nat) :
    ∀ (s : Storage) (r : StoredRecipe),
      s.recipes.find? (fun x => x.id == rid) = some r →
      storedViews (iterGetRecipe rid N s) rid = some (r.views + N) := by
  induction N with
  | zero =>
      intro s r h
      simp [iterGetRecipe, storedViews, h]
  | succ n ih =>
      intro s r h
      have hstore := getRecipe_store_of_found rid s r h
      have hfind : ((getRecipeEndpoint rid s).store).recipes.find? (fun x => x.id == rid) =
          some ⟨r.id, r.title, r.cooking_time, r.description, r.views + 1⟩ := by
        rw [hstore]
        show (incrementViews rid s.recipes).find? _ = _
        rw [find?_incrementViews, h]
        rfl
      have hn := ih _ _ hfind
      show storedViews (iterGetRecipe rid n (getRecipeEndpoint rid s).store) rid = _
      rw [hn]
      congr 1
      show r.views + 1 + (n : Int) = r.views + ((n : Int) + 1)
      ring

/-- C1: for an existing id, `get_recipe_by_id` increments the stored views
counter by exactly 1, returns the detail view with views equal to the
prior stored value plus 1, and N sequential calls increase the stored
views by exactly N. -/
theorem get_recipe_increments_views (rid : Int) (s : Storage) (r : StoredRecipe)
    (h : s.recipes.find? (fun x => x.id == rid) = some r) :
    (∃ d, (getRecipeEndpoint rid s).result = Except.ok d ∧ d.views = r.views + 1) ∧
    storedViews (getRecipeEndpoint rid s).store rid = some (r.views + 1) ∧
    ∀ N : Nat, storedViews (iterGetRecipe rid N s) rid = some (r.views + N) := by
  refine ⟨⟨_, getRecipe_result_of_found rid s r h, rfl⟩, ?_, fun N => iterGetRecipe_views rid N s r h⟩
  have h1 := iterGetRecipe_views rid 1 s r h
  show storedViews (iterGetRecipe rid 0 (getRecipeEndpoint rid s).store) rid =
    some (r.views + 1)
  calc storedViews (iterGetRecipe rid 0 (getRecipeEndpoint rid s).store) rid
      = storedViews (iterGetRecipe rid 1 s) rid := rfl
    _ = some (r.views + (1 : Nat)) := h1
    _ = some (r.views + 1) := by norm_num

theorem get_recipe_increments_views_witness :
    ((⟨[⟨1, "Borscht", 60, "Traditional soup with beets", 0⟩], [], 2, 1⟩ :
        Storage).recipes.find? (fun x => x.id == 1) =
      some ⟨1, "Borscht", 60, "Traditional soup with beets", 0⟩) ∧
    storedViews
      (getRecipeEndpoint 1
        ⟨[⟨1, "Borscht", 60, "Traditional soup with beets", 0⟩], [], 2, 1⟩).store 1 =
      some 1 :=
  ⟨by simp [List.find?],
   by
    have := (get_recipe_increments_views 1
      ⟨[⟨1, "Borscht", 60, "Traditional soup with beets", 0⟩], [], 2, 1⟩
      ⟨1, "Borscht", 60, "Traditional soup with beets", 0⟩ (by simp [List.find?])).2.1
    simpa using this⟩

/-- C9: on an existing id, `get_recipe_by_id` changes nothing but the
views field of the addressed recipe: the ingredients table is untouched,
the id counters are untouched, every recipe keeps its id, title,
cooking_time and description, and every recipe whose id differs from the
requested one is entirely unchanged. -/
theorem get_recipe_frame (rid : Int) (s : Storage) (r : StoredRecipe)
    (h : s.recipes.find? (fun x => x.id == rid) = some r) :
    (getRecipeEndpoint rid s).store.ingredients = s.ingredients ∧
    (getRecipeEndpoint rid s).store.nextRecipeId = s.nextRecipeId ∧
    (getRecipeEndpoint rid s).store.nextIngredientId = s.nextIngredientId ∧
    List.Forall₂ (fun old new : StoredRecipe =>
        new.id = old.id ∧ new.title = old.title ∧ new.cooking_time = old.cooking_time ∧
        new.description = old.description ∧ (old.id ≠ rid → new = old))
      s.recipes (getRecipeEndpoint rid s).store.recipes := by
  rw [getRecipe_store_of_found rid s r h]
  refine ⟨rfl, rfl, rfl, ?_⟩
  show List.Forall₂ _ s.recipes (s.recipes.map _)
  rw [List.forall₂_map_right_iff]
  rw [List.forall₂_same]
  intro x _
  by_cases heq : x.id = rid
  · simp [heq]
  · simp [heq]

theorem get_recipe_frame_witness :
    (getRecipeEndpoint 1
      ⟨[⟨1, "Borscht", 60, "Traditional soup with beets", 0⟩],
        [⟨1, "Salt", "1 tsp", 1⟩], 2, 2⟩).store.ingredients =
      [⟨1, "Salt", "1 tsp", 1⟩] :=
  (get_recipe_frame 1
    ⟨[⟨1, "Borscht", 60, "Traditional soup with beets", 0⟩],
      [⟨1, "Salt", "1 tsp", 1⟩], 2, 2⟩
    ⟨1, "Borscht", 60, "Traditional soup with beets", 0⟩ (by simp [List.find?])).1

theorem get_recipe_not_found_witness :
    ((getRecipeEndpoint 9999 emptyStorage).result =
        Except.error (Err.notFound 9999) ↔
      ∀ r ∈ emptyStorage.recipes, r.id ≠ 9999) ∧
    (getRecipeEndpoint 9999 emptyStorage).store = emptyStorage :=
  ⟨(get_recipe_not_found 9999 emptyStorage).1,
   (get_recipe_not_found 9999 emptyStorage).2 (by simp [emptyStorage])⟩

theorem insertIngredients_ok_spec :
    ∀ (inputs : List IngredientCreate) (rid : Int) (failAt : Option Nat) (s s2 : Storage),
      insertIngredients inputs rid failAt s = Except.ok s2 →
      s2.recipes = s.recipes ∧ s2.nextRecipeId = s.nextRecipeId ∧
      ∃ newIngs, s2.ingredients = s.ingredients ++ newIngs ∧
        newIngs.map (fun i => (i.name, i.quantity)) =
          inputs.map (fun i => (i.name, i.quantity)) ∧
        ∀ i ∈ newIngs, i.recipe_id = rid := by
  intro inputs
  induction inputs with
  | nil =>
      intro rid failAt s s2 h
      simp only [insertIngredients, Except.ok.injEq] at h
      subst h
      exact ⟨rfl, rfl, [], by simp, by simp, by simp⟩
  | cons ing rest ih =>
      intro rid failAt s s2 h
      have step : ∀ failAt2 : Option Nat,
          insertIngredients rest rid failAt2 (addIngredient ing rid s) = Except.ok s2 →
          s2.recipes = s.recipes ∧ s2.nextRecipeId = s.nextRecipeId ∧
          ∃ newIngs, s2.ingredients = s.ingredients ++ newIngs ∧
            newIngs.map (fun i => (i.name, i.quantity)) =
              (ing :: rest).map (fun i => (i.name, i.quantity)) ∧
            ∀ i ∈ newIngs, i.recipe_id = rid := by
        intro failAt2 h2
        obtain ⟨h1, h3, newIngs, h4, h5, h6⟩ := ih rid failAt2 _ s2 h2
        refine ⟨h1, h3, ⟨s.nextIngredientId, ing.name, ing.quantity, rid⟩ :: newIngs,
          ?_, ?_, ?_⟩
        · simpa [addIngredient] using h4
        · simpa using h5
        · intro i hi
          rcases List.mem_cons.mp hi with hi | hi
          · subst hi; rfl
          · exact h6 i hi
      cases failAt with
      | none => exact step none h
      | some n =>
          cases n with
          | zero => simp [insertIngredients] at h
          | succ m => exact step (some m) h

theorem insertIngredients_fail :
    ∀ (inputs : List IngredientCreate) (rid : Int) (i : Nat) (s : Storage),
      i < inputs.length →
      insertIngredients inputs rid (some i) s = Except.error Err.storageError := by
  intro inputs
  induction inputs with
  | nil => intro rid i s h; simp at h
  | cons ing rest ih =>
      intro rid i s h
      cases i with
      | zero => rfl
      | succ n =>
          show insertIngredients rest rid (some n) (addIngredient ing rid s) = _
          exact ih rid n _ (by simpa using h)

theorem insertIngredients_none_isOk (inputs : List IngredientCreate) :
    ∀ (rid : Int) (s : Storage), ∃ s2,
      insertIngredients inputs rid none s = Except.ok s2 := by
  induction inputs with
  | nil => intro rid s; exact ⟨s, rfl⟩
  | cons ing rest ih =>
      intro rid s
      obtain ⟨s2, h⟩ := ih rid (addIngredient ing rid s)
      exact ⟨s2, h⟩

/-- C5: `create_recipe` persists the Recipe first under its generated id,
then one Ingredient per input referencing that id, committed as one
transaction; if any ingredient insert fails, the whole creation rolls
back and the store is exactly what it was before the call. -/
theorem create_recipe_atomicity (data : RecipeCreate) (s : Storage)
    (hv : RecipeCreate.valid data = true) :
    (∀ i, i < data.ingredients.length →
        (createRecipeEndpoint (some i) data s).result = Except.error Err.storageError ∧
        (createRecipeEndpoint (some i) data s).store = s) ∧
    (∃ d, (createRecipeEndpoint none data s).result = Except.ok d) ∧
    (createRecipeEndpoint none data s).store.recipes =
      s.recipes ++ [⟨s.nextRecipeId, data.title, data.cooking_time, data.description, 0⟩] ∧
    ∃ newIngs, (createRecipeEndpoint none data s).store.ingredients = s.ingredients ++ newIngs ∧
      newIngs.map (fun i => (i.name, i.quantity)) =
        data.ingredients.map (fun i => (i.name, i.quantity)) ∧
      ∀ i ∈ newIngs, i.recipe_id = s.nextRecipeId := by
  obtain ⟨s2, hok⟩ := insertIngredients_none_isOk data.ingredients s.nextRecipeId
    ⟨s.recipes ++ [⟨s.nextRecipeId, data.title, data.cooking_time, data.description, 0⟩],
     s.ingredients, s.nextRecipeId + 1, s.nextIngredientId⟩
  obtain ⟨h1, h2, newIngs, h3, h4, h5⟩ :=
    insertIngredients_ok_spec data.ingredients s.nextRecipeId none _ s2 hok
  refine ⟨?_, ?_, ?_, ?_⟩
  · intro i hi
    have hf := insertIngredients_fail data.ingredients s.nextRecipeId i
      ⟨s.recipes ++ [⟨s.nextRecipeId, data.title, data.cooking_time, data.description, 0⟩],
       s.ingredients, s.nextRecipeId + 1, s.nextIngredientId⟩ hi
    constructor
    · simp [createRecipeEndpoint, hv, get_db, create_recipe, startSession, hf]
    · simp [createRecipeEndpoint, hv, get_db, create_recipe, startSession, hf,
        sessionRollback]
  · have hres : (createRecipeEndpoint none data s).result =
        Except.ok (toDetailResponse s2
          ⟨s.nextRecipeId, data.title, data.cooking_time, data.description, 0⟩) := by
      simp [createRecipeEndpoint, hv, get_db, create_recipe, startSession, hok]
    exact ⟨_, hres⟩
  · have hst : (createRecipeEndpoint none data s).store = s2 := by
      simp [createRecipeEndpoint, hv, get_db, create_recipe, startSession, hok,
        sessionCommit]
    rw [hst, h1]
  · have hst : (createRecipeEndpoint none data s).store = s2 := by
      simp [createRecipeEndpoint, hv, get_db, create_recipe, startSession, hok,
        sessionCommit]
    exact ⟨newIngs, by rw [hst]; exact h3, h4, h5⟩

theorem create_recipe_atomicity_witness :
    RecipeCreate.valid saltCreate = true ∧
    (createRecipeEndpoint (some 0) saltCreate emptyStorage).result =
      Except.error Err.storageError ∧
    (createRecipeEndpoint (some 0) saltCreate emptyStorage).store = emptyStorage ∧
    ∃ d, (createRecipeEndpoint none saltCreate emptyStorage).result = Except.ok d := by
  have hv : RecipeCreate.valid saltCreate = true := by decide
  have h := create_recipe_atomicity saltCreate emptyStorage hv
  exact ⟨hv, (h.1 0 (by decide)).1, (h.1 0 (by decide)).2, h.2.1⟩

theorem viewsMonotone_refl (s : Storage) : viewsMonotone s s :=
  fun r hr => ⟨r, hr, rfl, le_refl _⟩

theorem createRecipe_store_cases (failAt : Option Nat) (data : RecipeCreate)
    (s : Storage) :
    (createRecipeEndpoint failAt data s).store = s ∨
    ∃ s2 : Storage, (createRecipeEndpoint failAt data s).store = s2 ∧
      s2.recipes = s.recipes ++
        [⟨s.nextRecipeId, data.title, data.cooking_time, data.description, 0⟩] := by
  cases hv : RecipeCreate.valid data with
  | false =>
      left
      simp [createRecipeEndpoint, hv]
  | true =>
      cases hins : insertIngredients data.ingredients s.nextRecipeId failAt
        ⟨s.recipes ++ [⟨s.nextRecipeId, data.title, data.cooking_time, data.description, 0⟩],
         s.ingredients, s.nextRecipeId + 1, s.nextIngredientId⟩ with
      | error e =>
          left
          simp [createRecipeEndpoint, hv, get_db, create_recipe, startSession, hins,
            sessionRollback]
      | ok s2 =>
          right
          obtain ⟨h1, _, _⟩ :=
            insertIngredients_ok_spec data.ingredients s.nextRecipeId failAt _ s2 hins
          refine ⟨s2, ?_, h1⟩
          simp [createRecipeEndpoint, hv, get_db, create_recipe, startSession, hins,
            sessionCommit]

/-- C8: every operation keeps views counters non-negative; creation
starts the new recipe at views 0; no operation decreases any views
counter; and the only operation that changes a views value is the
detail-read path, which adds exactly 1 to the addressed recipe. -/
theorem views_counter_invariant :
    (∀ (skip limit : Int) (s : Storage), (listRecipesEndpoint skip limit s).store = s) ∧
    (∀ (failAt : Option Nat) (data : RecipeCreate) (s : Storage),
        viewsMonotone s (createRecipeEndpoint failAt data s).store ∧
        (viewsNonneg s → viewsNonneg (createRecipeEndpoint failAt data s).store) ∧
        ∀ q ∈ (createRecipeEndpoint failAt data s).store.recipes,
          q ∈ s.recipes ∨ q.views = 0) ∧
    (∀ (rid : Int) (s : Storage),
        viewsMonotone s (getRecipeEndpoint rid s).store ∧
        (viewsNonneg s → viewsNonneg (getRecipeEndpoint rid s).store) ∧
        List.Forall₂ (fun old new : StoredRecipe =>
            new.views = old.views ∨ (old.id = rid ∧ new.views = old.views + 1))
          s.recipes (getRecipeEndpoint rid s).store.recipes) := by
  refine ⟨fun skip limit s => rfl, ?_, ?_⟩
  · intro failAt data s
    rcases createRecipe_store_cases failAt data s with hst | ⟨s2, hst, hrec⟩
    · rw [hst]
      exact ⟨viewsMonotone_refl s, fun hp => hp, fun q hq => Or.inl hq⟩
    · refine ⟨?_, ?_, ?_⟩
      · intro r hr
        refine ⟨r, ?_, rfl, le_refl _⟩
        rw [hst, hrec]
        exact List.mem_append_left _ hr
      · intro hp q hq
        rw [hst, hrec] at hq
        rcases List.mem_append.mp hq with hq | hq
        · exact hp q hq
        · rcases List.mem_singleton.mp hq with rfl
          exact le_refl 0
      · intro q hq
        rw [hst, hrec] at hq
        rcases List.mem_append.mp hq with hq | hq
        · exact Or.inl hq
        · rcases List.mem_singleton.mp hq with rfl
          exact Or.inr rfl
  · intro rid s
    cases hfind : s.recipes.find? (fun x => x.id == rid) with
    | none =>
        rw [getRecipe_store_of_absent rid s hfind]
        exact ⟨viewsMonotone_refl s, fun hp => hp,
          List.forall₂_same.mpr (fun x _ => Or.inl rfl)⟩
    | some r =>
        rw [getRecipe_store_of_found rid s r hfind]
        refine ⟨?_, ?_, ?_⟩
        · intro q hq
          by_cases heq : q.id = rid
          · refine ⟨⟨q.id, q.title, q.cooking_time, q.description, q.views + 1⟩, ?_, rfl,
              by show q.views ≤ q.views + 1; omega⟩
            show _ ∈ incrementViews rid s.recipes
            have : (fun x : StoredRecipe =>
                if x.id == rid then
                  (⟨x.id, x.title, x.cooking_time, x.description, x.views + 1⟩ : StoredRecipe)
                else x) q =
                ⟨q.id, q.title, q.cooking_time, q.description, q.views + 1⟩ := by
              simp [heq]
            exact this ▸ List.mem_map_of_mem _ hq
          · refine ⟨q, ?_, rfl, le_refl _⟩
            show _ ∈ incrementViews rid s.recipes
            have : (fun x : StoredRecipe =>
                if x.id == rid then
                  (⟨x.id, x.title, x.cooking_time, x.description, x.views + 1⟩ : StoredRecipe)
                else x) q = q := by
              simp [heq]
            exact this ▸ List.mem_map_of_mem _ hq
        · intro hp q hq
          have hq2 : q ∈ incrementViews rid s.recipes := hq
          rw [incrementViews] at hq2
          obtain ⟨x, hx, hxq⟩ := List.mem_map.mp hq2
          by_cases heq : x.id = rid
          · have : q = ⟨x.id, x.title, x.cooking_time, x.description, x.views + 1⟩ := by
              rw [← hxq]; simp [heq]
            rw [this]
            have := hp x hx
            show (0 : Int) ≤ x.views + 1
            omega
          · have : q = x := by rw [← hxq]; simp [heq]
            rw [this]
            exact hp x hx
        · show List.Forall₂ _ s.recipes (incrementViews rid s.recipes)
          rw [incrementViews, List.forall₂_map_right_iff, List.forall₂_same]
          intro x _
          by_cases heq : x.id = rid
          · simp [heq]
          · simp [heq]

theorem views_counter_invariant_witness :
    viewsNonneg emptyStorage ∧
    viewsNonneg (createRecipeEndpoint none saltCreate emptyStorage).store ∧
    viewsNonneg (getRecipeEndpoint 1 (createRecipeEndpoint none saltCreate emptyStorage).store).store := by
  have h0 : viewsNonneg emptyStorage := by
    intro r hr
    simp [emptyStorage] at hr
  have h1 : viewsNonneg (createRecipeEndpoint none saltCreate emptyStorage).store :=
    (views_counter_invariant.2.1 none saltCreate emptyStorage).2.1 h0
  exact ⟨h0, h1,
    (views_counter_invariant.2.2 1 (createRecipeEndpoint none saltCreate emptyStorage).store).2.1 h1⟩

/-- C6: `create_recipe` rejects, before any storage access and leaving
the store unchanged, every input with an empty or over-255-character
title, a non-positive cooking_time, a description shorter than 10
characters, or any ingredient whose name is outside 1-255 characters or
whose quantity is outside 1-100 characters. -/
theorem create_recipe_validation (failAt : Option Nat) (data : RecipeCreate)
    (s : Storage)
    (h : data.title.length = 0 ∨ 255 < data.title.length ∨ data.cooking_time ≤ 0 ∨
         data.description.length < 10 ∨
         ∃ ing ∈ data.ingredients, ing.name.length = 0 ∨ 255 < ing.name.length ∨
           ing.quantity.length = 0 ∨ 100 < ing.quantity.length) :
    (createRecipeEndpoint failAt data s).result = Except.error Err.validationError ∧
    (createRecipeEndpoint failAt data s).store = s := by
  have hval : RecipeCreate.valid data = false := by
    cases hv : RecipeCreate.valid data with
    | false => rfl
    | true =>
        exfalso
        simp only [RecipeCreate.valid, IngredientCreate.valid, Bool.and_eq_true,
          decide_eq_true_eq, List.all_eq_true] at hv
        obtain ⟨⟨⟨⟨h1, h2⟩, h3⟩, h4⟩, h5⟩ := hv
        rcases h with h | h | h | h | ⟨ing, hmem, hcase⟩
        · omega
        · omega
        · omega
        · omega
        · obtain ⟨⟨⟨g1, g2⟩, g3⟩, g4⟩ := h5 ing hmem
          rcases hcase with hc | hc | hc | hc <;> omega
  constructor
  · simp [createRecipeEndpoint, hval]
  · simp [createRecipeEndpoint, hval]

theorem create_recipe_validation_witness :
    shortDescCreate.description.length = 5 ∧
    (createRecipeEndpoint none shortDescCreate emptyStorage).result =
      Except.error Err.validationError ∧
    (createRecipeEndpoint none shortDescCreate emptyStorage).store = emptyStorage := by
  have h := create_recipe_validation none shortDescCreate emptyStorage
    (Or.inr (Or.inr (Or.inr (Or.inl (by decide)))))
  exact ⟨by decide, h.1, h.2⟩

/-- C3: for non-negative skip and limit, `get_all_recipes` returns the
stored recipes sorted by views descending with ties broken by
cooking_time ascending, after dropping the first skip entries and
truncating to at most limit entries, each projected to exactly
id / title / cooking_time / views; an empty page is the empty sequence,
and the store is not modified. -/
theorem list_recipes_sorted_paged (skip limit : Int) (s : Storage)
    (hskip : 0 ≤ skip) (hlimit : 0 ≤ limit) :
    ∃ sorted : List StoredRecipe,
      sorted.Perm s.recipes ∧
      List.Pairwise (fun a b : StoredRecipe =>
        b.views < a.views ∨ (a.views = b.views ∧ a.cooking_time ≤ b.cooking_time)) sorted ∧
      (listRecipesEndpoint skip limit s).result =
        Except.ok (((sorted.drop skip.toNat).take limit.toNat).map
          (fun r => (⟨r.id, r.title, r.cooking_time, r.views⟩ : RecipeListResponse))) ∧
      (listRecipesEndpoint skip limit s).store = s := by
  refine ⟨s.recipes.mergeSort recipeLE, List.mergeSort_perm _ _, ?_, rfl, rfl⟩
  have hp := List.sorted_mergeSort recipeLE_trans recipeLE_total s.recipes
  refine hp.imp ?_
  intro a b hab
  simp only [recipeLE, Bool.or_eq_true, Bool.and_eq_true, decide_eq_true_eq,
    beq_iff_eq] at hab
  exact hab

theorem list_recipes_sorted_paged_witness :
    ∃ sorted : List StoredRecipe,
      sorted.Perm emptyStorage.recipes ∧
      List.Pairwise (fun a b : StoredRecipe =>
        b.views < a.views ∨ (a.views = b.views ∧ a.cooking_time ≤ b.cooking_time)) sorted ∧
      (listRecipesEndpoint 0 100 emptyStorage).result =
        Except.ok (((sorted.drop (0 : Int).toNat).take (100 : Int).toNat).map
          (fun r => (⟨r.id, r.title, r.cooking_time, r.views⟩ : RecipeListResponse))) ∧
      (listRecipesEndpoint 0 100 emptyStorage).store = emptyStorage :=
  list_recipes_sorted_paged 0 100 emptyStorage (by decide) (by decide)

/-- C2 counterexample: creating the Salt recipe in an empty store and then
fetching it returns the detail view with views 1, not 0 — the detail read
itself increments the counter. -/
theorem round_trip_views_counterexample :
    (createRecipeEndpoint none saltCreate emptyStorage).result =
      Except.ok ⟨1, "Borscht", 60, "Traditional soup with beets", 0,
        [⟨1, "Salt", "1 tsp"⟩]⟩ ∧
    (getRecipeEndpoint 1 (createRecipeEndpoint none saltCreate emptyStorage).store).result =
      Except.ok ⟨1, "Borscht", 60, "Traditional soup with beets", 1,
        [⟨1, "Salt", "1 tsp"⟩]⟩ ∧
    (1 : Int) ≠ 0 :=
  ⟨rfl, rfl, by decide⟩

/-- C2 (amended): a recipe created with the single ingredient
Salt / 1 tsp comes back from `get_recipe` on the new id with identical
title, cooking_time and description and exactly that one ingredient, but
with views equal to 1 — the detail read increments the initial 0; it is
the creation response that carries views 0. -/
theorem round_trip_amended (data : RecipeCreate) (s : Storage)
    (hv : RecipeCreate.valid data = true)
    (hsalt : data.ingredients = [⟨"Salt", "1 tsp"⟩])
    (hfreshR : ∀ r ∈ s.recipes, r.id ≠ s.nextRecipeId)
    (hfreshI : ∀ i ∈ s.ingredients, i.recipe_id ≠ s.nextRecipeId) :
    (∃ d0, (createRecipeEndpoint none data s).result = Except.ok d0 ∧
      d0.title = data.title ∧ d0.cooking_time = data.cooking_time ∧
      d0.description = data.description ∧ d0.views = 0) ∧
    ∃ d, (getRecipeEndpoint s.nextRecipeId
        (createRecipeEndpoint none data s).store).result = Except.ok d ∧
      d.title = data.title ∧ d.cooking_time = data.cooking_time ∧
      d.description = data.description ∧ d.views = 1 ∧
      d.ingredients = [⟨s.nextIngredientId, "Salt", "1 tsp"⟩] := by
  have hins : insertIngredients data.ingredients s.nextRecipeId none
      ⟨s.recipes ++ [⟨s.nextRecipeId, data.title, data.cooking_time, data.description, 0⟩],
       s.ingredients, s.nextRecipeId + 1, s.nextIngredientId⟩ =
      Except.ok
        ⟨s.recipes ++ [⟨s.nextRecipeId, data.title, data.cooking_time, data.description, 0⟩],
         s.ingredients ++ [⟨s.nextIngredientId, "Salt", "1 tsp", s.nextRecipeId⟩],
         s.nextRecipeId + 1, s.nextIngredientId + 1⟩ := by
    rw [hsalt]
    rfl
  have hstore : (createRecipeEndpoint none data s).store =
      ⟨s.recipes ++ [⟨s.nextRecipeId, data.title, data.cooking_time, data.description, 0⟩],
       s.ingredients ++ [⟨s.nextIngredientId, "Salt", "1 tsp", s.nextRecipeId⟩],
       s.nextRecipeId + 1, s.nextIngredientId + 1⟩ := by
    simp [createRecipeEndpoint, hv, get_db, create_recipe, startSession, hins, sessionCommit]
  have hres : (createRecipeEndpoint none data s).result =
      Except.ok (toDetailResponse
        ⟨s.recipes ++ [⟨s.nextRecipeId, data.title, data.cooking_time, data.description, 0⟩],
         s.ingredients ++ [⟨s.nextIngredientId, "Salt", "1 tsp", s.nextRecipeId⟩],
         s.nextRecipeId + 1, s.nextIngredientId + 1⟩
        ⟨s.nextRecipeId, data.title, data.cooking_time, data.description, 0⟩) := by
    simp [createRecipeEndpoint, hv, get_db, create_recipe, startSession, hins]
  refine ⟨⟨_, hres, rfl, rfl, rfl, rfl⟩, ?_⟩
  have hfind :
      (⟨s.recipes ++ [⟨s.nextRecipeId, data.title, data.cooking_time, data.description, 0⟩],
        s.ingredients ++ [⟨s.nextIngredientId, "Salt", "1 tsp", s.nextRecipeId⟩],
        s.nextRecipeId + 1, s.nextIngredientId + 1⟩ : Storage).recipes.find?
        (fun x => x.id == s.nextRecipeId) =
      some ⟨s.nextRecipeId, data.title, data.cooking_time, data.description, 0⟩ := by
    show (s.recipes ++ [_]).find? _ = _
    rw [List.find?_append]
    have h1 : s.recipes.find? (fun x => x.id == s.nextRecipeId) = none :=
      List.find?_eq_none.mpr (fun x hx => by simpa using hfreshR x hx)
    rw [h1]
    simp [List.find?]
  rw [hstore]
  have hget := getRecipe_result_of_found s.nextRecipeId _ _ hfind
  refine ⟨_, hget, rfl, rfl, rfl, by norm_num [toDetailResponse], ?_⟩
  have hfilter :
      (s.ingredients ++
          [(⟨s.nextIngredientId, "Salt", "1 tsp", s.nextRecipeId⟩ : StoredIngredient)]).filter
        (fun i => i.recipe_id == s.nextRecipeId) =
      [(⟨s.nextIngredientId, "Salt", "1 tsp", s.nextRecipeId⟩ : StoredIngredient)] := by
    rw [List.filter_append]
    have h2 : s.ingredients.filter (fun i => i.recipe_id == s.nextRecipeId) = [] :=
      List.filter_eq_nil.mpr (fun i hi => by simpa using hfreshI i hi)
    rw [h2]
    simp [List.filter]
  show ((s.ingredients ++
      [(⟨s.nextIngredientId, "Salt", "1 tsp", s.nextRecipeId⟩ : StoredIngredient)]).filter
      (fun i => i.recipe_id == s.nextRecipeId)).map toIngredientResponse = _
  rw [hfilter]
  rfl

theorem round_trip_amended_witness :
    RecipeCreate.valid saltCreate = true ∧
    ∃ d, (getRecipeEndpoint emptyStorage.nextRecipeId
        (createRecipeEndpoint none saltCreate emptyStorage).store).result = Except.ok d ∧
      d.title = saltCreate.title ∧ d.cooking_time = saltCreate.cooking_time ∧
      d.description = saltCreate.description ∧ d.views = 1 ∧
      d.ingredients = [⟨emptyStorage.nextIngredientId, "Salt", "1 tsp"⟩] := by
  have hv : RecipeCreate.valid saltCreate = true := by decide
  exact ⟨hv, (round_trip_amended saltCreate emptyStorage hv rfl
    (by intro r hr; simp [emptyStorage] at hr)
    (by intro i hi; simp [emptyStorage] at hi)).2⟩

end Cookbook
